import Mathlib

/-!
# Verification of the aquaponics adaptive actuator control loop

Shallow embedding of the control-loop core of `src/backend/main.py`:
the greedy action selector (`choose_action`), the incremental Q update
(`update_q`), the tick orchestration (`auto_adjust_actuators`), sensor
ingestion with the bounded history log (`ingest_sensor_readings`,
`get_sensor_history`), the recommendation function (`recommend`) and the
manual actuator write (`set_actuator`).

Python floats are modelled as rationals; Python dicts keyed by strings are
modelled as functions `String → Option _` (for the stores) or association
lists (for request payloads, whose iteration order matters).
-/

namespace Aqua

/-- The three control actions. In the source they are the `int` keys
`-1` (decrease), `0` (maintain) and `1` (increase) of each Q-value dict,
always inserted in that order. -/
inductive RLAction where
  | decrease
  | maintain
  | increase
deriving DecidableEq, Repr

/-- One Q-table row: the dict `{-1: _, 0: _, 1: _}` for one sensor.
Its insertion order (decrease, maintain, increase) is the iteration
order that Python `max` sees. -/
structure QRow where
  dec : ℚ
  maint : ℚ
  inc : ℚ
deriving DecidableEq, Repr

/-- The freshly initialised row `{-1: 0.0, 0: 0.0, 1: 0.0}`. -/
def qZeroRow : QRow := ⟨0, 0, 0⟩

/-- Look up an action's estimate in a row. -/
def QRow.get (r : QRow) : RLAction → ℚ
  | .decrease => r.dec
  | .maintain => r.maint
  | .increase => r.inc

/-- Replace an action's estimate in a row. -/
def QRow.set (r : QRow) (a : RLAction) (x : ℚ) : QRow :=
  match a with
  | .decrease => { r with dec := x }
  | .maintain => { r with maint := x }
  | .increase => { r with inc := x }

/-- The Q-table `q_values`: per sensor key, an optional row (rows are
created lazily). -/
abbrev QMap := String → Option QRow

/-- `max(actions, key=actions.get)` over the dict `{-1: _, 0: _, 1: _}`:
Python `max` returns the first key (in insertion order -1, 0, 1) whose
value attains the maximum. -/
def greedy (r : QRow) : RLAction :=
  if r.dec ≥ r.maint ∧ r.dec ≥ r.inc then .decrease
  else if r.maint ≥ r.inc then .maintain
  else .increase

/-- `choose_action` of the source: initialise the sensor's row to zeros if
missing, then return the greedy action. Returns the updated table together
with the chosen action. -/
def choose_action (q : QMap) (sensor : String) : QMap × RLAction :=
  let row := (q sensor).getD qZeroRow
  (fun k => if k = sensor then some row else q k, greedy row)

/-- `update_q` of the source: initialise the row if missing, compute
`reward = -abs(value - target)` and move the chosen action's estimate by
`lr * (reward - current)`. -/
def update_q (q : QMap) (sensor : String) (action : RLAction)
    (value target lr : ℚ) : QMap :=
  let row := (q sensor).getD qZeroRow
  let reward : ℚ := -|value - target|
  let current_q := row.get action
  let row' := row.set action (current_q + lr * (reward - current_q))
  fun k => if k = sensor then some row' else q k

/-- An actuator state value: the source stores either strings
(`"on"`/`"off"`) or numbers (percentages) in `actuator_states`. -/
inductive ActVal where
  | str (s : String)
  | num (q : ℚ)
deriving DecidableEq, Repr

/-- The actuator registry: device name to current state, `none` for
unknown devices. -/
abbrev AMap := String → Option ActVal

/-- Point update of the actuator registry (`actuator_states[k] = v`). -/
def setA (m : AMap) (key : String) (v : ActVal) : AMap :=
  fun k => if k = key then some v else m k

/-- The initial `actuator_states` dict of the source. -/
def actuator_states : AMap := fun k =>
  if k = "co2_valve" then some (.str "off")
  else if k = "grow_lights" then some (.num 0)
  else if k = "water_pump" then some (.str "off")
  else if k = "drip_valves" then some (.str "off")
  else if k = "fans" then some (.num 0)
  else if k = "heaters" then some (.str "off")
  else if k = "aerators" then some (.str "off")
  else if k = "audio_transducers" then some (.num 0)
  else if k = "cameras" then some (.str "off")
  else none

/-- Keys of the `mappings` dict in `auto_adjust_actuators`, in insertion
(= iteration) order. -/
def mappingKeys : List String :=
  ["co2_ppm", "air_temp_celsius", "humidity_percent",
   "water_flow_rate_lpm", "audio_decibels_db", "light_brightness_percent"]

/-- The per-key lambdas of the `mappings` dict: the actuator writes
performed for a chosen action. `targets` is `TARGET_CONFIG` (read by the
target-snap mappings via `.get(key, 0)`). -/
def apply_action (targets : String → Option ℚ) (sensor : String)
    (a : RLAction) (act : AMap) : AMap :=
  if sensor = "co2_ppm" then
    setA act "co2_valve" (.str (if a = .increase then "on" else "off"))
  else if sensor = "air_temp_celsius" then
    setA (setA act "heaters" (.str (if a = .increase then "on" else "off")))
      "fans" (.num (if a = .decrease then 50 else 0))
  else if sensor = "humidity_percent" then
    setA act "fans"
      (if a = .increase then .num 75
       else if a = .decrease then .num 25
       else (act "fans").getD (.num 0))
  else if sensor = "water_flow_rate_lpm" then
    setA act "water_pump" (.str (if a = .increase then "on" else "off"))
  else if sensor = "audio_decibels_db" then
    setA act "audio_transducers" (.num ((targets "audio_decibels_db").getD 0))
  else if sensor = "light_brightness_percent" then
    setA act "grow_lights" (.num ((targets "light_brightness_percent").getD 0))
  else act

/-- The mutable state touched by one tick: the Q-table and the actuator
registry (`latest_readings` and `TARGET_CONFIG` are only read). -/
structure TickState where
  q : QMap
  act : AMap

/-- The loop body of `auto_adjust_actuators` for one sensor key: skip if
the target or the reading is missing, otherwise choose an action, apply
it, then update the Q-value (lr defaults to 0.1 in the source). -/
def tickKey (readings targets : String → Option ℚ)
    (st : TickState) (sensor : String) : TickState :=
  match targets sensor, readings sensor with
  | some t, some v =>
      let p := choose_action st.q sensor
      let act1 := apply_action targets sensor p.2 st.act
      let q2 := update_q p.1 sensor p.2 v t (1/10)
      ⟨q2, act1⟩
  | some _, none => st
  | none, _ => st

/-- `auto_adjust_actuators`: a no-op unless the mode is `"real"`,
otherwise one pass over the mapping keys in dict order. -/
def auto_adjust_actuators (mode : String)
    (readings targets : String → Option ℚ) (st : TickState) : TickState :=
  if mode ≠ "real" then st
  else mappingKeys.foldl (tickKey readings targets) st

/-- One entry of `history_readings`: a timestamp and the ingested batch
(the batch is kept as the association list of the posted dict). -/
structure HEntry where
  timestamp : ℕ
  readings : List (String × ℚ)
deriving DecidableEq, Repr

/-- State touched by ingestion: `latest_readings` and `history_readings`. -/
structure IngestState where
  latest : String → Option ℚ
  history : List HEntry

/-- Append with the source's trim: `history.append(e)` then
`if len > 1000: history.pop(0)`. -/
def pushHistory (h : List HEntry) (e : HEntry) : List HEntry :=
  let h' := h ++ [e]
  if h'.length > 1000 then h'.tail else h'

/-- `ingest_sensor_readings`: rejected outside real mode; otherwise every
key of the payload overwrites `latest_readings`, one timestamped entry is
appended to the history (trimmed to 1000) and the key count is returned. -/
def ingest_sensor_readings (mode : String) (readings : List (String × ℚ))
    (ts : ℕ) (st : IngestState) : Except String (IngestState × ℕ) :=
  if mode ≠ "real" then
    .error "Can only ingest sensor data in real mode"
  else
    let latest' := readings.foldl
      (fun m kv => fun k => if k = kv.1 then some kv.2 else m k) st.latest
    let history' := pushHistory st.history ⟨ts, readings⟩
    .ok (⟨latest', history'⟩, readings.length)

/-- `get_sensor_history`: empty outside real mode or on an empty log,
otherwise the last `limit` entries with `limit` clamped to
`[1, len]` (`history[-limit:]`). -/
def get_sensor_history (mode : String) (limit : ℤ)
    (history : List HEntry) : List HEntry :=
  if mode ≠ "real" ∨ history = [] then []
  else
    let l : ℤ := max 1 (min limit (history.length : ℤ))
    history.drop (history.length - l.toNat)

/-- The nested `recommend` helper of `/ai`: `None` when the target or the
reading is missing, else compare `|v - t|` with the acceptable band. -/
def recommend (targets readings : String → Option ℚ)
    (key : String) (threshold : ℚ) : Option String :=
  match targets key, readings key with
  | some t, some v =>
      let delta := |v - t|
      let acceptable := if |t| > 0 then threshold * |t| else threshold
      if delta ≤ acceptable then some "maintain"
      else if v < t then some "increase" else some "decrease"
  | some _, none => none
  | none, _ => none

/-- Error results of the actuator-write endpoint. -/
inductive ApiError where
  | badRequest (detail : String)
  | notFound (detail : String)
deriving DecidableEq, Repr

/-- `set_actuator`: 400 outside real mode, 404 for an unknown device,
400 when the body has no `state` key; otherwise the supplied state is
stored unconditionally and returned. -/
def set_actuator (mode : String) (device : String)
    (body : List (String × ActVal)) (act : AMap) :
    Except ApiError (AMap × ActVal) :=
  if mode ≠ "real" then
    .error (.badRequest "Can only control actuators in real mode")
  else if (act device).isNone then
    .error (.notFound "Unknown actuator")
  else
    match body.lookup "state" with
    | none => .error (.badRequest "Request body must include a 'state' field")
    | some s => .ok (setA act device s, s)

/-- Empty Q-table. -/
def emptyQ : QMap := fun _ => none

/-- Readings map holding a single key/value pair. -/
def single (key : String) (v : ℚ) : String → Option ℚ :=
  fun k => if k = key then some v else none

/-! ## Step lemmas for the tick loop -/

/-- A key with a missing reading or target is a definitional no-op of the
loop body. -/
theorem tickKey_skip (r t : String → Option ℚ) (s : TickState) (k : String)
    (h : r k = none ∨ t k = none) : tickKey r t s k = s := by
  rcases h with h | h
  · unfold tickKey
    rcases ht : t k with _ | tv <;> simp [ht, h]
  · unfold tickKey
    simp [h]

/-- The loop body on an eligible key, written out. -/
theorem tickKey_eligible (r t : String → Option ℚ) (s : TickState) (k : String)
    (tv vv : ℚ) (ht : t k = some tv) (hr : r k = some vv) :
    tickKey r t s k =
      ⟨update_q (choose_action s.q k).1 k (greedy ((s.q k).getD qZeroRow)) vv tv (1/10),
       apply_action t k (greedy ((s.q k).getD qZeroRow)) s.act⟩ := by
  unfold tickKey
  simp [ht, hr, choose_action]

/-- The loop body for key `k'` does not touch the Q-row of a different
key `k`. -/
theorem tickKey_q_other (r t : String → Option ℚ) (s : TickState)
    (k k' : String) (hne : k ≠ k') : (tickKey r t s k').q k = s.q k := by
  unfold tickKey
  rcases ht : t k' with _ | tv
  · simp
  · rcases hr : r k' with _ | vv
    · simp
    · simp [update_q, choose_action, hne]

/-- A fold of the loop body over any key list preserves the Q-row of a
key whose reading or target is missing. -/
theorem foldl_q_preserved (r t : String → Option ℚ) (k : String)
    (h : r k = none ∨ t k = none) :
    ∀ (l : List String) (s : TickState),
      (l.foldl (tickKey r t) s).q k = s.q k := by
  intro l
  induction l with
  | nil => intro s; rfl
  | cons a l ih =>
      intro s
      rw [List.foldl_cons, ih]
      by_cases hak : k = a
      · rw [← hak, tickKey_skip r t s k h]
      · exact tickKey_q_other r t s k a hak

/-! ## Claims -/

/-- C9: whenever the global mode is not `"real"`, the tick
(`auto_adjust_actuators`) is a complete no-op: the Q-table and the
actuator registry are returned unchanged, whatever readings and targets
are present (the readings and targets themselves are only ever read by
the tick). -/
theorem c9_tick_noop_outside_real_mode (mode : String)
    (readings targets : String → Option ℚ) (st : TickState)
    (h : mode ≠ "real") :
    auto_adjust_actuators mode readings targets st = st := by
  unfold auto_adjust_actuators
  rw [if_pos h]

/-- Witness for C9: a concrete tick in `"demo"` mode changes nothing. -/
theorem c9_witness :
    auto_adjust_actuators "demo" (single "co2_ppm" 900) (single "co2_ppm" 600)
      ⟨emptyQ, actuator_states⟩ = ⟨emptyQ, actuator_states⟩ :=
  c9_tick_noop_outside_real_mode "demo" _ _ _ (by decide)

/-- C1: cold-start scenario. With reading `co2_ppm = 900`, target
`co2_ppm = 600` and an all-zero Q-table, the first tick selects Decrease,
sets `co2_valve` to `"off"` and updates the Decrease estimate to
`0 + 0.1 * (-300 - 0) = -30`; selection on the resulting row (the second
tick's choice under unchanged inputs) is Maintain, first in tie-break
order among the tied maximum `0.0` held by Maintain and Increase. -/
theorem c1_cold_start_scenario :
    (choose_action emptyQ "co2_ppm").2 = .decrease ∧
    (auto_adjust_actuators "real" (single "co2_ppm" 900) (single "co2_ppm" 600)
      ⟨emptyQ, actuator_states⟩).act "co2_valve" = some (.str "off") ∧
    (auto_adjust_actuators "real" (single "co2_ppm" 900) (single "co2_ppm" 600)
      ⟨emptyQ, actuator_states⟩).q "co2_ppm" = some ⟨-30, 0, 0⟩ ∧
    (choose_action (auto_adjust_actuators "real" (single "co2_ppm" 900)
      (single "co2_ppm" 600) ⟨emptyQ, actuator_states⟩).q "co2_ppm").2 = .maintain := by
  have hg : greedy qZeroRow = .decrease := by simp [greedy, qZeroRow]
  have hst : auto_adjust_actuators "real" (single "co2_ppm" 900) (single "co2_ppm" 600)
      ⟨emptyQ, actuator_states⟩ =
      tickKey (single "co2_ppm" 900) (single "co2_ppm" 600)
        ⟨emptyQ, actuator_states⟩ "co2_ppm" := by
    unfold auto_adjust_actuators
    rw [if_neg (by simp)]
    simp only [mappingKeys, List.foldl_cons, List.foldl_nil]
    rw [tickKey_skip _ _ _ "air_temp_celsius" (Or.inl (by simp [single])),
        tickKey_skip _ _ _ "humidity_percent" (Or.inl (by simp [single])),
        tickKey_skip _ _ _ "water_flow_rate_lpm" (Or.inl (by simp [single])),
        tickKey_skip _ _ _ "audio_decibels_db" (Or.inl (by simp [single])),
        tickKey_skip _ _ _ "light_brightness_percent" (Or.inl (by simp [single]))]
  have hel := tickKey_eligible (single "co2_ppm" 900) (single "co2_ppm" 600)
      ⟨emptyQ, actuator_states⟩ "co2_ppm" 600 900 (by simp [single]) (by simp [single])
  have habs : |(900 : ℚ) - 600| = 300 := by
    rw [show (900 : ℚ) - 600 = 300 by norm_num]
    exact abs_of_nonneg (by norm_num)
  have hq : (auto_adjust_actuators "real" (single "co2_ppm" 900) (single "co2_ppm" 600)
      ⟨emptyQ, actuator_states⟩).q "co2_ppm" = some ⟨-30, 0, 0⟩ := by
    rw [hst, hel]
    simp only [emptyQ, Option.getD_none, hg]
    simp [update_q, choose_action, emptyQ, qZeroRow, QRow.get, QRow.set, habs]
    norm_num
  refine ⟨by simp [choose_action, emptyQ, hg], ?_, hq, ?_⟩
  · rw [hst, hel]
    simp only [emptyQ, Option.getD_none, hg]
    simp [apply_action, setA]
  · simp only [choose_action, hq]
    simp [greedy]

/-- C2: for every sensor key, `choose_action` returns the action whose
estimate attains the maximum of the row, and ties break by evaluating
actions in the fixed order Decrease, Maintain, Increase: if Maintain is
returned, Decrease does not attain the maximum, and if Increase is
returned, neither Decrease nor Maintain does. The sensor's row is stored
back (created with all three estimates `0.0` when absent), and a fresh
all-zero row always yields Decrease. -/
theorem c2_select_action_greedy (q : QMap) (sensor : String) (row : QRow)
    (hrow : row = (q sensor).getD qZeroRow) :
    row.get (choose_action q sensor).2 = max (max row.dec row.maint) row.inc ∧
    ((choose_action q sensor).2 = .maintain →
        ¬ (row.dec ≥ row.maint ∧ row.dec ≥ row.inc)) ∧
    ((choose_action q sensor).2 = .increase →
        ¬ (row.dec ≥ row.maint ∧ row.dec ≥ row.inc) ∧
        ¬ (row.maint ≥ row.dec ∧ row.maint ≥ row.inc)) ∧
    (choose_action q sensor).1 sensor = some row ∧
    (q sensor = none → (choose_action q sensor).1 sensor = some qZeroRow) ∧
    (row = qZeroRow → (choose_action q sensor).2 = .decrease) := by
  have hsel : (choose_action q sensor).2 = greedy row := by
    simp [choose_action, hrow]
  have hins : (choose_action q sensor).1 sensor = some row := by
    simp [choose_action, hrow]
  refine ⟨?_, ?_, ?_, hins, ?_, ?_⟩
  · rw [hsel]
    unfold greedy
    split_ifs with h1 h2
    · rw [QRow.get, max_eq_left h1.1, max_eq_left h1.2]
    · have hdm : row.dec < row.maint := by
        by_contra hc
        push_neg at hc
        exact h1 ⟨hc, le_trans h2 hc⟩
      rw [QRow.get, max_eq_right hdm.le, max_eq_left h2]
    · push_neg at h2
      have hdi : row.dec < row.inc := by
        by_contra hc
        push_neg at hc
        rcases not_and_or.mp h1 with h | h
        · push_neg at h
          linarith
        · push_neg at h
          linarith
      have hmx : max row.dec row.maint < row.inc := max_lt hdi h2
      rw [QRow.get, max_eq_right hmx.le]
  · intro hm
    rw [hsel] at hm
    unfold greedy at hm
    split_ifs at hm with h1 h2
    · exact h1
  · intro hm
    rw [hsel] at hm
    unfold greedy at hm
    split_ifs at hm with h1 h2
    constructor
    · exact h1
    · intro ⟨hmd, hmi⟩
      exact h2 hmi
  · intro hn
    rw [hins, hrow, hn]
    rfl
  · intro hz
    rw [hsel, hz]
    simp [greedy, qZeroRow]

/-- Witness for C2: on the empty Q-table (fresh all-zero row for `"pH"`),
selection returns Decrease. -/
theorem c2_witness : (choose_action emptyQ "pH").2 = .decrease := by
  have h := c2_select_action_greedy emptyQ "pH" qZeroRow rfl
  exact h.2.2.2.2.2 rfl

/-- C3: `recommend` returns `none` (Unknown) exactly when the target or
the reading for the key is absent; otherwise, with
`acceptable = threshold * |t|` when `t ≠ 0` and the raw `threshold` when
`t = 0`, it returns `"maintain"` exactly when `|v - t| ≤ acceptable`
(boundary inclusive), else `"increase"` when `v < t` and `"decrease"`
otherwise. -/
theorem c3_recommend_cases (targets readings : String → Option ℚ)
    (key : String) (threshold : ℚ) :
    (recommend targets readings key threshold = none ↔
      (targets key = none ∨ readings key = none)) ∧
    (∀ t v, targets key = some t → readings key = some v →
      recommend targets readings key threshold =
        some (if |v - t| ≤ (if t ≠ 0 then threshold * |t| else threshold)
              then "maintain"
              else if v < t then "increase" else "decrease")) := by
  constructor
  · rcases ht : targets key with _ | t <;> rcases hr : readings key with _ | v <;>
      simp [recommend, ht, hr]
    split_ifs <;> simp
  · intro t v ht hr
    simp only [recommend, ht, hr]
    have hacc : (if |t| > 0 then threshold * |t| else threshold) =
        (if t ≠ 0 then threshold * |t| else threshold) := by
      by_cases h : t = 0 <;> simp [h, abs_pos]
    rw [hacc]
    split_ifs <;> rfl

/-- Witness for C3: a missing target yields `none`, and a reading within
the 5% band of its target yields `"maintain"`. -/
theorem c3_witness :
    recommend (fun _ => none) (single "pH" 7) "pH" (1/20) = none ∧
    recommend (single "pH" 7) (single "pH" (71/10)) "pH" (1/20) = some "maintain" := by
  constructor
  · exact (c3_recommend_cases (fun _ => none) (single "pH" 7) "pH" (1/20)).1.mpr
      (Or.inl rfl)
  · have h := (c3_recommend_cases (single "pH" 7) (single "pH" (71/10)) "pH"
      (1/20)).2 7 (71/10) rfl rfl
    rw [h]
    rw [show (71/10 : ℚ) - 7 = 1/10 by norm_num,
        abs_of_nonneg (by norm_num : (0:ℚ) ≤ 1/10),
        abs_of_nonneg (by norm_num : (0:ℚ) ≤ 7)]
    norm_num

/-- C8: one `update_q` step moves the chosen action's estimate so that
its absolute distance to the reward `-|v - t|` contracts exactly by the
factor `1 - lr`; hence for any `lr ∈ (0,1)` the distance is non-increasing
over repeated identical updates. -/
theorem c8_update_contraction (q : QMap) (sensor : String) (a : RLAction)
    (v t lr : ℚ) (h0 : 0 < lr) (h1 : lr < 1) (n : ℕ) :
    |((((fun m => update_q m sensor a v t lr)^[n + 1] q) sensor).getD qZeroRow).get a
        - (-|v - t|)| =
      (1 - lr) *
        |((((fun m => update_q m sensor a v t lr)^[n] q) sensor).getD qZeroRow).get a
          - (-|v - t|)| ∧
    |((((fun m => update_q m sensor a v t lr)^[n + 1] q) sensor).getD qZeroRow).get a
        - (-|v - t|)| ≤
      |((((fun m => update_q m sensor a v t lr)^[n] q) sensor).getD qZeroRow).get a
        - (-|v - t|)| := by
  have hstep : ∀ m : QMap,
      (((update_q m sensor a v t lr) sensor).getD qZeroRow).get a =
        ((m sensor).getD qZeroRow).get a
          + lr * ((-|v - t|) - ((m sensor).getD qZeroRow).get a) := by
    intro m
    simp only [update_q]
    cases a <;> simp [QRow.get, QRow.set]
  have key : ((((fun m => update_q m sensor a v t lr)^[n + 1] q) sensor).getD qZeroRow).get a
        - (-|v - t|) =
      (1 - lr) *
        (((((fun m => update_q m sensor a v t lr)^[n] q) sensor).getD qZeroRow).get a
          - (-|v - t|)) := by
    rw [Function.iterate_succ_apply']
    rw [hstep]
    ring
  have heq : |((((fun m => update_q m sensor a v t lr)^[n + 1] q) sensor).getD qZeroRow).get a
        - (-|v - t|)| =
      (1 - lr) *
        |((((fun m => update_q m sensor a v t lr)^[n] q) sensor).getD qZeroRow).get a
          - (-|v - t|)| := by
    rw [key, abs_mul, abs_of_pos (by linarith : (0:ℚ) < 1 - lr)]
  refine ⟨heq, ?_⟩
  rw [heq]
  exact mul_le_of_le_one_left (abs_nonneg _) (by linarith)

/-- Witness for C8: with `lr = 0.1`, reading 900 and target 600, the
first update step does not increase the distance to the reward. -/
theorem c8_witness :
    |((((fun m => update_q m "co2_ppm" RLAction.decrease 900 600 (1/10))^[0 + 1]
        emptyQ) "co2_ppm").getD qZeroRow).get RLAction.decrease
      - (-|(900:ℚ) - 600|)| ≤
    |((((fun m => update_q m "co2_ppm" RLAction.decrease 900 600 (1/10))^[0]
        emptyQ) "co2_ppm").getD qZeroRow).get RLAction.decrease
      - (-|(900:ℚ) - 600|)| :=
  (c8_update_contraction emptyQ "co2_ppm" RLAction.decrease 900 600 (1/10)
    (by norm_num) (by norm_num) 0).2

/-- Overwriting fold of a readings batch does not touch keys outside the
batch. -/
theorem foldl_set_not_mem (l : List (String × ℚ)) (m : String → Option ℚ) (k : String)
    (hk : k ∉ l.map Prod.fst) :
    l.foldl (fun m kv => fun x => if x = kv.1 then some kv.2 else m x) m k = m k := by
  induction l generalizing m with
  | nil => rfl
  | cons a l ih =>
      simp only [List.map_cons, List.mem_cons] at hk
      push_neg at hk
      rw [List.foldl_cons, ih _ hk.2]
      simp [hk.1]

/-- Overwriting fold of a readings batch with distinct keys stores each
pair of the batch. -/
theorem foldl_set_mem (l : List (String × ℚ)) (m : String → Option ℚ) (k : String) (v : ℚ)
    (hnd : (l.map Prod.fst).Nodup) (hmem : (k, v) ∈ l) :
    l.foldl (fun m kv => fun x => if x = kv.1 then some kv.2 else m x) m k = some v := by
  induction l generalizing m with
  | nil => cases hmem
  | cons a l ih =>
      simp only [List.map_cons, List.nodup_cons] at hnd
      rw [List.foldl_cons]
      rcases List.mem_cons.mp hmem with h | h
      · rw [← h] at hnd ⊢
        rw [foldl_set_not_mem l _ k hnd.1]
        simp
      · exact ih _ hnd.2 h

/-- C4: ingestion of a well-formed batch never fails on its own data: the
only failure is the external mode gate. In real mode it succeeds, returns
the number of keys of the batch, unconditionally overwrites the latest
reading of every key in the batch (no range validation) and leaves every
other key's reading unchanged. -/
theorem c4_ingest_total (mode : String) (readings : List (String × ℚ)) (ts : ℕ)
    (st : IngestState) (hnd : (readings.map Prod.fst).Nodup) :
    (mode ≠ "real" →
      ingest_sensor_readings mode readings ts st =
        .error "Can only ingest sensor data in real mode") ∧
    (∃ out, ingest_sensor_readings "real" readings ts st = Except.ok out) ∧
    (∀ out, ingest_sensor_readings "real" readings ts st = .ok out →
      out.2 = readings.length ∧
      (∀ k v, (k, v) ∈ readings → out.1.latest k = some v) ∧
      (∀ k, k ∉ readings.map Prod.fst → out.1.latest k = st.latest k)) := by
  refine ⟨fun h => by simp [ingest_sensor_readings, h], ⟨_, rfl⟩, ?_⟩
  intro out hok
  have : ingest_sensor_readings "real" readings ts st =
      .ok (⟨readings.foldl (fun m kv => fun x => if x = kv.1 then some kv.2 else m x) st.latest,
            pushHistory st.history ⟨ts, readings⟩⟩, readings.length) := rfl
  rw [this] at hok
  obtain rfl : _ = out := Except.ok.inj hok
  refine ⟨rfl, ?_, ?_⟩
  · intro k v hmem
    exact foldl_set_mem readings st.latest k v hnd hmem
  · intro k hk
    exact foldl_set_not_mem readings st.latest k hk

/-- Witness for C4: ingesting a wildly out-of-range reading succeeds. -/
theorem c4_witness :
    (∃ out, ingest_sensor_readings "real" [("co2_ppm", 90000)] 7
      ⟨fun _ => none, []⟩ = Except.ok out) := by
  have h := c4_ingest_total "real" [("co2_ppm", 90000)] 7 ⟨fun _ => none, []⟩ (by simp)
  exact h.2.1

/-- C5: the history log never exceeds its capacity of 1000 after an
ingest: ingestion appends exactly one timestamped entry (trimmed), below
capacity it is a plain append, and appending to a full log of 1000
evicts exactly the oldest entry, after which `get_sensor_history 1000`
returns entries 2..1001 in their original oldest-first order. -/
theorem c5_history_bounded (readings : List (String × ℚ)) (ts : ℕ)
    (st : IngestState) (out : IngestState × ℕ)
    (hcap : st.history.length ≤ 1000)
    (hok : ingest_sensor_readings "real" readings ts st = .ok out) :
    out.1.history = pushHistory st.history ⟨ts, readings⟩ ∧
    out.1.history.length ≤ 1000 ∧
    (st.history.length < 1000 → out.1.history = st.history ++ [⟨ts, readings⟩]) ∧
    (st.history.length = 1000 →
      out.1.history = st.history.tail ++ [⟨ts, readings⟩] ∧
      get_sensor_history "real" 1000 out.1.history =
        st.history.tail ++ [⟨ts, readings⟩]) := by
  have hpush : pushHistory st.history ⟨ts, readings⟩ =
      if (st.history ++ [(⟨ts, readings⟩ : HEntry)]).length > 1000
      then (st.history ++ [(⟨ts, readings⟩ : HEntry)]).tail
      else st.history ++ [(⟨ts, readings⟩ : HEntry)] := rfl
  have hdef : ingest_sensor_readings "real" readings ts st =
      .ok (⟨readings.foldl (fun m kv => fun x => if x = kv.1 then some kv.2 else m x) st.latest,
            pushHistory st.history ⟨ts, readings⟩⟩, readings.length) := rfl
  rw [hdef] at hok
  obtain rfl : _ = out := Except.ok.inj hok
  have htail : st.history.length = 1000 →
      pushHistory st.history ⟨ts, readings⟩ = st.history.tail ++ [⟨ts, readings⟩] := by
    intro h1000
    rw [hpush, if_pos (by simp [h1000])]
    rcases hh : st.history with _ | ⟨a, rest⟩
    · rw [hh] at h1000; simp at h1000
    · simp
  refine ⟨rfl, ?_, ?_, ?_⟩
  · show (pushHistory st.history ⟨ts, readings⟩).length ≤ 1000
    rw [hpush]
    split_ifs with h
    · simp at h ⊢
      omega
    · simp at h ⊢
      omega
  · intro hlt
    show pushHistory st.history ⟨ts, readings⟩ = st.history ++ [⟨ts, readings⟩]
    rw [hpush, if_neg (by simp; omega)]
  · intro h1000
    refine ⟨htail h1000, ?_⟩
    show get_sensor_history "real" 1000 (pushHistory st.history ⟨ts, readings⟩) =
      st.history.tail ++ [⟨ts, readings⟩]
    rw [htail h1000]
    have hlen : (st.history.tail ++ [(⟨ts, readings⟩ : HEntry)]).length = 1000 := by
      simp [List.length_tail]
      omega
    have hne : st.history.tail ++ [(⟨ts, readings⟩ : HEntry)] ≠ [] := by
      simp
    rw [get_sensor_history, if_neg (by simp [hne])]
    rw [hlen]
    norm_num

set_option maxRecDepth 10000 in
/-- Witness for C5: appending the 1001st entry to a full log of 1000
keeps the length at 1000 and evicts exactly the oldest entry. -/
theorem c5_witness :
    (pushHistory (List.replicate 1000 (⟨0, []⟩ : HEntry)) ⟨5, []⟩).length ≤ 1000 ∧
    pushHistory (List.replicate 1000 (⟨0, []⟩ : HEntry)) ⟨5, []⟩ =
      (List.replicate 1000 (⟨0, []⟩ : HEntry)).tail ++ [⟨5, []⟩] := by
  have h := c5_history_bounded [] 5
    ⟨fun _ => none, List.replicate 1000 (⟨0, []⟩ : HEntry)⟩
    (⟨fun _ => none, pushHistory (List.replicate 1000 (⟨0, []⟩ : HEntry)) ⟨5, []⟩⟩, 0)
    (by rw [List.length_replicate]) rfl
  exact ⟨h.2.1, (h.2.2.2 (List.length_replicate 1000 _)).1⟩

/-- C6 counterexample: `set_actuator` performs no state-kind validation.
`co2_valve` holds the boolean-like `"off"`, yet writing the percentage
`75` to it succeeds and stores `75` — the claimed InvalidState failure
(with the stored state left unchanged) does not happen. -/
theorem c6_counterexample :
    actuator_states "co2_valve" = some (.str "off") ∧
    (set_actuator "real" "co2_valve" [("state", ActVal.num 75)] actuator_states).map
        (fun p => (p.1 "co2_valve", p.2)) =
      .ok (some (ActVal.num 75), ActVal.num 75) := by
  constructor
  · rfl
  · rfl

/-- C6 amended: on a known id, `set_actuator` in real mode stores the
supplied state unconditionally — whatever its kind — and returns it; the
only id-related failure is NotFound on an unknown id. -/
theorem c6_amended_write_unvalidated (device : String)
    (body : List (String × ActVal)) (act : AMap) (s : ActVal) :
    (act device = none →
      set_actuator "real" device body act = .error (.notFound "Unknown actuator")) ∧
    ((act device).isSome → body.lookup "state" = some s →
      set_actuator "real" device body act = .ok (setA act device s, s)) := by
  constructor
  · intro h
    simp [set_actuator, h]
  · intro h hs
    rcases ha : act device with _ | a0
    · rw [ha] at h
      cases h
    · simp [set_actuator, ha, hs]

/-- Witness for C6 (amended): writing 75 to the known `grow_lights`
stores 75. -/
theorem c6_witness :
    set_actuator "real" "grow_lights" [("state", ActVal.num 75)] actuator_states =
      .ok (setA actuator_states "grow_lights" (ActVal.num 75), ActVal.num 75) :=
  (c6_amended_write_unvalidated "grow_lights" [("state", ActVal.num 75)]
    actuator_states (ActVal.num 75)).2 (by rfl) rfl

/-- Removing a key whose reading or target is missing from the mapping
list does not change the tick fold. -/
theorem foldl_erase_skip (r t : String → Option ℚ) (k : String)
    (h : r k = none ∨ t k = none) :
    ∀ (l : List String) (s : TickState),
      l.foldl (tickKey r t) s = (l.erase k).foldl (tickKey r t) s := by
  intro l
  induction l with
  | nil => intro s; rfl
  | cons a l ih =>
      intro s
      by_cases hak : a = k
      · subst hak
        rw [List.erase_cons_head, List.foldl_cons, tickKey_skip r t s a h]
      · rw [List.erase_cons, if_neg (by simp [hak]), List.foldl_cons,
          List.foldl_cons, ih]

/-- C7: a sensor key with a reading but no target (or a target but no
reading) is a silent no-op within a tick: its own loop step changes
nothing at all, the whole tick equals the tick with the key removed from
the mapping table (so every other eligible key is processed exactly as
before), and the skipped key's Q-row is left unchanged. -/
theorem c7_skipped_key (readings targets : String → Option ℚ) (k : String)
    (st : TickState) (hmiss : readings k = none ∨ targets k = none) :
    (∀ s : TickState, tickKey readings targets s k = s) ∧
    auto_adjust_actuators "real" readings targets st =
      (mappingKeys.erase k).foldl (tickKey readings targets) st ∧
    (auto_adjust_actuators "real" readings targets st).q k = st.q k := by
  have hauto : auto_adjust_actuators "real" readings targets st =
      mappingKeys.foldl (tickKey readings targets) st := by
    rw [auto_adjust_actuators, if_neg (by simp)]
  refine ⟨fun s => tickKey_skip readings targets s k hmiss, ?_, ?_⟩
  · rw [hauto]
    exact foldl_erase_skip readings targets k hmiss mappingKeys st
  · rw [hauto]
    exact foldl_q_preserved readings targets k hmiss mappingKeys st

/-- Witness for C7: with a reading but no target for `air_temp_celsius`,
a real-mode tick leaves its (absent) Q-row absent. -/
theorem c7_witness :
    (auto_adjust_actuators "real" (single "air_temp_celsius" 30) (fun _ => none)
      ⟨emptyQ, actuator_states⟩).q "air_temp_celsius" = none := by
  have h := c7_skipped_key (single "air_temp_celsius" 30) (fun _ => none)
    "air_temp_celsius" ⟨emptyQ, actuator_states⟩ (Or.inr rfl)
  exact h.2.2

/-- The actuator component of an eligible loop step. -/
theorem tickKey_act_eligible (r t : String → Option ℚ) (s : TickState) (k : String)
    (tv vv : ℚ) (ht : t k = some tv) (hr : r k = some vv) :
    (tickKey r t s k).act =
      apply_action t k (greedy ((s.q k).getD qZeroRow)) s.act := by
  rw [tickKey_eligible r t s k tv vv ht hr]

/-- Processing a mapping key whose lambda never writes `fans` leaves the
`fans` actuator unchanged. -/
theorem tickKey_fans_frame (r t : String → Option ℚ) (s : TickState) (sensor : String)
    (h : sensor = "co2_ppm" ∨ sensor = "water_flow_rate_lpm" ∨
         sensor = "audio_decibels_db" ∨ sensor = "light_brightness_percent") :
    (tickKey r t s sensor).act "fans" = s.act "fans" := by
  rcases htv : t sensor with _ | tv
  · rw [tickKey_skip r t s sensor (Or.inr htv)]
  rcases hrv : r sensor with _ | vv
  · rw [tickKey_skip r t s sensor (Or.inl hrv)]
  rw [tickKey_act_eligible r t s sensor tv vv htv hrv]
  rcases h with rfl | rfl | rfl | rfl <;> simp [apply_action, setA]

/-- The three mapping keys processed after `humidity_percent` never touch
`fans`. -/
theorem foldl_fans_frame (r t : String → Option ℚ) (s : TickState) :
    ((["water_flow_rate_lpm", "audio_decibels_db", "light_brightness_percent"] :
        List String).foldl (tickKey r t) s).act "fans" = s.act "fans" := by
  simp only [List.foldl_cons, List.foldl_nil]
  rw [tickKey_fans_frame r t _ _ (Or.inr (Or.inr (Or.inr rfl))),
      tickKey_fans_frame r t _ _ (Or.inr (Or.inr (Or.inl rfl))),
      tickKey_fans_frame r t _ _ (Or.inr (Or.inl rfl))]

/-- C10: when both `air_temp_celsius` and `humidity_percent` are eligible
in a tick, both mappings write `fans` and the air-temperature mapping runs
first; the final `fans` state is 75 when the humidity action is Increase,
25 when it is Decrease, and otherwise exactly the value the
air-temperature mapping just wrote (50 when its action is Decrease, else
0) — the air-temperature write survives only when the humidity action is
Maintain. -/
theorem c10_fans_overwrite (readings targets : String → Option ℚ) (st : TickState)
    (vA tA vH tH : ℚ)
    (hrA : readings "air_temp_celsius" = some vA)
    (htA : targets "air_temp_celsius" = some tA)
    (hrH : readings "humidity_percent" = some vH)
    (htH : targets "humidity_percent" = some tH) :
    (auto_adjust_actuators "real" readings targets st).act "fans" =
      some (if greedy ((st.q "humidity_percent").getD qZeroRow) = .increase
            then .num 75
            else if greedy ((st.q "humidity_percent").getD qZeroRow) = .decrease
            then .num 25
            else .num (if greedy ((st.q "air_temp_celsius").getD qZeroRow) = .decrease
                       then 50 else 0)) := by
  rw [auto_adjust_actuators, if_neg (by simp)]
  have hsplit : mappingKeys.foldl (tickKey readings targets) st =
      (["water_flow_rate_lpm", "audio_decibels_db", "light_brightness_percent"] :
        List String).foldl (tickKey readings targets)
        (tickKey readings targets
          (tickKey readings targets
            (tickKey readings targets st "co2_ppm") "air_temp_celsius")
          "humidity_percent") := rfl
  rw [hsplit, foldl_fans_frame]
  have hqA : (tickKey readings targets st "co2_ppm").q "air_temp_celsius" =
      st.q "air_temp_celsius" :=
    tickKey_q_other readings targets st "air_temp_celsius" "co2_ppm" (by decide)
  have hqH1 : (tickKey readings targets st "co2_ppm").q "humidity_percent" =
      st.q "humidity_percent" :=
    tickKey_q_other readings targets st "humidity_percent" "co2_ppm" (by decide)
  have hqHB : (tickKey readings targets
      (tickKey readings targets st "co2_ppm") "air_temp_celsius").q "humidity_percent" =
      st.q "humidity_percent" :=
    (tickKey_q_other readings targets _ "humidity_percent" "air_temp_celsius"
      (by decide)).trans hqH1
  rw [tickKey_act_eligible readings targets _ "humidity_percent" tH vH htH hrH,
      hqHB,
      tickKey_act_eligible readings targets _ "air_temp_celsius" tA vA htA hrA,
      hqA]
  simp only [apply_action]
  simp [setA]

/-- Witness for C10: fresh Q-rows give Decrease for both keys, so the
humidity mapping overwrites the air-temperature write of 50 with 25. -/
theorem c10_witness :
    (auto_adjust_actuators "real"
      (fun k => if k = "air_temp_celsius" then some 30
                else if k = "humidity_percent" then some 80 else none)
      (fun k => if k = "air_temp_celsius" then some 22
                else if k = "humidity_percent" then some 60 else none)
      ⟨emptyQ, actuator_states⟩).act "fans" = some (.num 25) := by
  have h := c10_fans_overwrite
    (fun k => if k = "air_temp_celsius" then some 30
              else if k = "humidity_percent" then some 80 else none)
    (fun k => if k = "air_temp_celsius" then some 22
              else if k = "humidity_percent" then some 60 else none)
    ⟨emptyQ, actuator_states⟩ 30 22 80 60 rfl rfl rfl rfl
  rw [h]
  simp [greedy, qZeroRow, emptyQ]

end Aqua
